import Mathlib

/-!
Verification of the Conviva eco JS tracker core: the schema rule-matching
engine, the global context registry, plugin context aggregation, the payload
builder, and payload cleaning.  The repository ships only its type
declarations (`src/index.min.d.ts`); the executable bodies of the functions
below are therefore modelled from the specification document, faithfully to
its words, and the theorems settle the specification claims against those
models.  All functions are total Lean definitions, so "never throws" is
modelled by totality; JavaScript reference identity of callables is modelled
by tagging each callable with a numeric identifier.
-/

namespace ConvivaCore

/-- Splits a list of characters on a separator character.  Mirrors the
behaviour of JavaScript `String.prototype.split` with a single-character
separator: splitting the empty string yields one empty segment. -/
def splitOnChar (sep : Char) (cs : List Char) : List (List Char) :=
  match cs with
  | [] => [[]]
  | c :: rest =>
    let tail := splitOnChar sep rest
    if c = sep then [] :: tail
    else
      match tail with
      | [] => [[c]]
      | seg :: segs => (c :: seg) :: segs

/-- Splits a string on a separator character, producing strings. -/
def splitParts (sep : Char) (s : String) : List String :=
  (splitOnChar sep s.data).map String.mk

/-- Drops an expected leading character sequence, or fails. -/
def dropLeading (tag : List Char) (cs : List Char) : Option (List Char) :=
  match tag, cs with
  | [], rest => some rest
  | _ :: _, [] => none
  | t :: ts, c :: rest => if c = t then dropLeading ts rest else none

/-- Modelled from the spec: schema strings are documented as
`iglu:`-prefixed (§4.1) while the worked examples in §8 write them without
the prefix, so the parser tolerates both by stripping a leading `iglu:`
when present. -/
def stripIglu (s : String) : String :=
  match dropLeading ("iglu:".data) s.data with
  | some rest => String.mk rest
  | none => s

/-- A non-empty all-digit token (a non-negative integer literal). -/
def isDigitStr (s : String) : Bool :=
  !s.data.isEmpty && s.data.all Char.isDigit

/-- Identifier characters allowed in the name and format parts. -/
def isIdentChar (c : Char) : Bool :=
  c.isAlphanum || c = '-' || c = '_'

/-- A non-empty identifier token. -/
def isIdentStr (s : String) : Bool :=
  !s.data.isEmpty && s.data.all isIdentChar

/-- The 5-part structural decomposition of a schema string
(`vendor/name/format/model-revision-addition`). -/
structure SchemaParts where
  vendor : String
  name : String
  format : String
  model : String
  revision : String
  addition : String
deriving DecidableEq

/-- Modelled from the spec: `getSchemaParts` (§4.1) slices a schema string
into its composite parts, returning `none` (not an error) when the string
does not match the expected segment count or the version suffix is not
three non-negative integers. -/
def getSchemaParts (input : String) : Option SchemaParts :=
  match splitParts '/' (stripIglu input) with
  | [vendor, name, format, version] =>
    match splitParts '-' version with
    | [model, revision, addition] =>
      if isDigitStr model && isDigitStr revision && isDigitStr addition then
        some (SchemaParts.mk vendor name format model revision addition)
      else none
    | _ => none
  | _ => none

/-- A version token of a rule: either the wildcard or an integer literal. -/
def isVersionToken (s : String) : Bool :=
  s = "*" || isDigitStr s

/-- Modelled from the spec: `getRuleParts` (§4.2) slices a rule string by
the same splitter as `getSchemaParts`, except that each component of the
version triple may also be the wildcard `*`. -/
def getRuleParts (input : String) : Option SchemaParts :=
  match splitParts '/' (stripIglu input) with
  | [vendor, name, format, version] =>
    match splitParts '-' version with
    | [model, revision, addition] =>
      if isVersionToken model && isVersionToken revision && isVersionToken addition then
        some (SchemaParts.mk vendor name format model revision addition)
      else none
    | _ => none
  | _ => none

/-- All segments are the wildcard `*`. -/
def allWildcards (segs : List String) : Bool :=
  segs.all (fun s => s = "*")

/-- Modelled from the spec: `validateVendorParts` (§4.1) — valid iff zero or
more concrete (non-wildcard) leading segments are followed by zero or more
`*` segments, with no concrete segment after a wildcard. -/
def validateVendorParts (parts : List String) : Bool :=
  match parts with
  | [] => true
  | p :: ps => if p = "*" then allWildcards ps else validateVendorParts ps

/-- Modelled from the spec: `validateVendor` (§4.1) splits the vendor on
`.` and checks the wildcard grammar; an empty vendor is invalid. -/
def validateVendor (input : String) : Bool :=
  if input = "" then false else validateVendorParts (splitParts '.' input)

/-- Modelled from the spec: `isValidRule` (§4.2) — the rule parses into its
parts, the vendor passes `validateVendor`, and the other parts are each
either `*` or a literal token of the allowed character class for that
position (name/format: identifier characters; version: integers). -/
def isValidRule (input : String) : Bool :=
  match getRuleParts input with
  | some p =>
    validateVendor p.vendor
      && (p.name = "*" || isIdentStr p.name)
      && (p.format = "*" || isIdentStr p.format)
      && isVersionToken p.model && isVersionToken p.revision && isVersionToken p.addition
  | none => false

/-- A non-vendor rule part matches a schema part iff it is the wildcard or
is character-equal to it (§4.2). -/
def matchPart (rulePart schemaPart : String) : Bool :=
  rulePart = "*" || rulePart = schemaPart

/-- Modelled from the spec: vendor segments are compared one by one, and a
trailing wildcard segment matches all remaining concrete segments (§4.2). -/
def matchVendorParts (ruleSegs schemaSegs : List String) : Bool :=
  match ruleSegs, schemaSegs with
  | [], ss => ss.isEmpty
  | r :: rs, ss =>
    if r = "*" && rs.isEmpty then true
    else
      match ss with
      | [] => false
      | s :: ss => matchPart r s && matchVendorParts rs ss

/-- Vendor matching over the dot-separated segment lists. -/
def matchVendor (ruleVendor schemaVendor : String) : Bool :=
  matchVendorParts (splitParts '.' ruleVendor) (splitParts '.' schemaVendor)

/-- Modelled from the spec: `matchSchemaAgainstRule` (§4.2) — parse both
sides, fail closed (false) if either fails to parse or the rule is invalid,
then compare part-by-part; all parts must match. -/
def matchSchemaAgainstRule (rule schema : String) : Bool :=
  if !isValidRule rule then false
  else
    match getRuleParts rule, getSchemaParts schema with
    | some rp, some sp =>
      matchVendor rp.vendor sp.vendor
        && matchPart rp.name sp.name
        && matchPart rp.format sp.format
        && matchPart rp.model sp.model
        && matchPart rp.revision sp.revision
        && matchPart rp.addition sp.addition
    | _, _ => false

/-- An `accept` or `reject` field of a RuleSet: absent, a single rule
string, or an array of rule strings. -/
inductive RuleSetArg where
  | absent
  | one (rule : String)
  | many (rules : List String)
deriving DecidableEq

/-- Normalizes a RuleSet field to an array of rules before evaluation. -/
def normalizeRules : RuleSetArg → List String
  | RuleSetArg.absent => []
  | RuleSetArg.one r => [r]
  | RuleSetArg.many rs => rs

/-- A RuleSet: `accept`/`reject` lists of rules. -/
structure RuleSet where
  accept : RuleSetArg
  reject : RuleSetArg
deriving DecidableEq

/-- Modelled from the spec: `matchSchemaAgainstRuleSet` (§4.3) — if any
reject rule matches, deny; else if any accept rule matches, allow; else
deny. -/
def matchSchemaAgainstRuleSet (ruleSet : RuleSet) (schema : String) : Bool :=
  if (normalizeRules ruleSet.reject).any (fun r => matchSchemaAgainstRule r schema) then false
  else if (normalizeRules ruleSet.accept).any (fun r => matchSchemaAgainstRule r schema) then true
  else false

mutual
/-- A JSON value, used for the `dt` payload of self-describing JSON and for
payload dictionary values.  Mutual with its list and field-list forms so
that structural (deep) equality is decidable. -/
inductive JValue where
  | null
  | bool (b : Bool)
  | num (n : Int)
  | str (s : String)
  | arr (items : JList)
  | obj (fields : JFields)
inductive JList where
  | nil
  | cons (head : JValue) (tail : JList)
inductive JFields where
  | nil
  | cons (key : String) (val : JValue) (tail : JFields)
end

deriving instance DecidableEq for JValue
deriving instance DecidableEq for JList
deriving instance DecidableEq for JFields

/-- A self-describing JSON document: schema string plus data payload
(the wire shape `{sc, dt}`). -/
structure SelfDescribingJson where
  sc : String
  dt : JValue
deriving DecidableEq

/-- Modelled from the spec: `isSelfDescribingJson` — the value has a schema
string and a non-empty data object (§4.4, §7.3 of the d.ts). -/
def isSelfDescribingJson (j : SelfDescribingJson) : Bool :=
  match j.dt with
  | JValue.obj (JFields.cons _ _ _) => true
  | _ => false

/-- What a context generator returns when invoked: nothing, a single
entity, or an array of entities. -/
inductive GenResult where
  | nothing
  | one (e : SelfDescribingJson)
  | many (es : List SelfDescribingJson)

/-- Flattens a generator result into its contributed entities: nothing
contributes zero, a single entity one, an array many (§4.4). -/
def flattenGenResult : GenResult → List SelfDescribingJson
  | GenResult.nothing => []
  | GenResult.one e => [e]
  | GenResult.many es => es

/-- A context primitive: a static self-describing JSON entity, or a
generator function.  Generators are modelled by a numeric identifier (the
JavaScript function reference); their behaviour is supplied externally by
an environment mapping identifiers to results. -/
inductive ContextPrimitive where
  | static (e : SelfDescribingJson)
  | gen (id : Nat)
deriving DecidableEq

/-- Modelled from the spec: `resolveDynamicContext` (§4.4) over an input
array of static entities and generator callbacks.  `env` gives each
generator's result for the supplied extra arguments `args` (of arbitrary
type `A`, mirroring `...extraParams`).  Static entities pass through after
`isSelfDescribingJson` validation; malformed ones are dropped, not fatal;
generator outputs are flattened in place. -/
def resolveDynamicContext {A : Type} (env : Nat → A → GenResult) (args : A)
    (dynamicOrStaticContexts : List ContextPrimitive) : List SelfDescribingJson :=
  dynamicOrStaticContexts.flatMap fun c =>
    match c with
    | ContextPrimitive.static e => if isSelfDescribingJson e then [e] else []
    | ContextPrimitive.gen i => flattenGenResult (env i args)

/-- The read-only view passed to generators and filter predicates: the
in-progress event payload, its type tag, and its schema string. -/
structure ContextEvent where
  event : List (String × JValue)
  eventType : String
  eventSchema : String

/-- A conditional context provider: a filter predicate (modelled by its
function identifier) or a RuleSet, paired with its context primitives. -/
inductive ConditionalProvider where
  | filter (fid : Nat) (prims : List ContextPrimitive)
  | ruleSet (rs : RuleSet) (prims : List ContextPrimitive)
deriving DecidableEq

/-- One input to `addGlobalContexts`/`removeGlobalContexts`, after shape
classification (§4.5): a bare context primitive, a conditional provider,
or a value failing all classifications (discarded). -/
inductive GlobalContextInput where
  | primitive (p : ContextPrimitive)
  | conditional (c : ConditionalProvider)
  | malformed
deriving DecidableEq

/-- The global context registry state: ordered unconditional primitives and
ordered conditional providers. -/
structure GlobalContextsState where
  primitives : List ContextPrimitive
  conditionals : List ConditionalProvider
deriving DecidableEq

/-- A fresh registry as produced by the `globalContexts()` factory. -/
def emptyGlobalContexts : GlobalContextsState :=
  GlobalContextsState.mk [] []

/-- Modelled from the spec: `addGlobalContexts` (§4.5) — classify each
input; valid primitives append to `primitives`, valid conditional
providers append to `conditionals`, items failing classification are
discarded.  Insertion order is preserved. -/
def addGlobalContexts (s : GlobalContextsState) (inputs : List GlobalContextInput) :
    GlobalContextsState :=
  inputs.foldl
    (fun st i =>
      match i with
      | GlobalContextInput.primitive p =>
        GlobalContextsState.mk (st.primitives ++ [p]) st.conditionals
      | GlobalContextInput.conditional c =>
        GlobalContextsState.mk st.primitives (st.conditionals ++ [c])
      | GlobalContextInput.malformed => st)
    s

/-- Removes the first entry structurally equal to `a`; leaves the list
unchanged when no entry is equal. -/
def removeFirst {α : Type} [DecidableEq α] (l : List α) (a : α) : List α :=
  match l with
  | [] => []
  | x :: xs => if x = a then xs else x :: removeFirst xs a

/-- Modelled from the spec: `removeGlobalContexts` (§4.5) — classify each
input identically to add, then remove the first structurally-equal entry
from the matching collection (deep value equality for data; function
identity — here the identifier — for callables). -/
def removeGlobalContexts (s : GlobalContextsState) (inputs : List GlobalContextInput) :
    GlobalContextsState :=
  inputs.foldl
    (fun st i =>
      match i with
      | GlobalContextInput.primitive p =>
        GlobalContextsState.mk (removeFirst st.primitives p) st.conditionals
      | GlobalContextInput.conditional c =>
        GlobalContextsState.mk st.primitives (removeFirst st.conditionals c)
      | GlobalContextInput.malformed => st)
    s

/-- Modelled from the spec: `clearGlobalContexts` (§4.5) empties both
collections. -/
def clearGlobalContexts (_ : GlobalContextsState) : GlobalContextsState :=
  GlobalContextsState.mk [] []

/-- The entities a single conditional provider contributes for an event:
its primitives resolved, when its criterion (filter predicate or RuleSet
match on the event schema) holds (§4.5). -/
def conditionalContribution (genv : Nat → ContextEvent → GenResult)
    (fenv : Nat → ContextEvent → Bool) (ev : ContextEvent) :
    ConditionalProvider → List SelfDescribingJson
  | ConditionalProvider.filter fid prims =>
    if fenv fid ev then resolveDynamicContext genv ev prims else []
  | ConditionalProvider.ruleSet rs prims =>
    if matchSchemaAgainstRuleSet rs ev.eventSchema then resolveDynamicContext genv ev prims
    else []

/-- Modelled from the spec: `getApplicableContexts` (§4.5) — resolve every
unconditional primitive (generators invoked with the ContextEvent), then
every matched conditional provider's primitives; unconditional output
precedes conditional output, each in registration order, with no
deduplication. -/
def getApplicableContexts (genv : Nat → ContextEvent → GenResult)
    (fenv : Nat → ContextEvent → Bool) (s : GlobalContextsState) (ev : ContextEvent) :
    List SelfDescribingJson :=
  resolveDynamicContext genv ev s.primitives
    ++ s.conditionals.flatMap (conditionalContribution genv fenv ev)

/-- The observable outcome of invoking a plugin's `contexts()` hook: it
throws, or it returns an array of entities. -/
inductive HookOutcome where
  | throws
  | returns (es : List SelfDescribingJson)

/-- A core plugin as seen by the context aggregator: it may lack the
optional `contexts()` hook, or have one with a given outcome. -/
inductive Plugin where
  | noHook
  | withHook (h : HookOutcome)

/-- The entities one plugin contributes and the number of diagnostics it
causes to be logged: a missing hook contributes nothing; a throwing hook is
caught, logged once, and treated as empty; a returning hook contributes its
entities (§4.6). -/
def pluginContribution : Plugin → List SelfDescribingJson × Nat
  | Plugin.noHook => ([], 0)
  | Plugin.withHook HookOutcome.throws => ([], 1)
  | Plugin.withHook (HookOutcome.returns es) => (es, 0)

/-- Modelled from the spec: `addPluginContexts` (§4.6) — invoke each active
plugin's optional `contexts()` hook, concatenate the returned entity arrays
in plugin-registration order, appending `additionalContexts` (when
supplied) at the end; a throwing hook is caught and logged and its
contribution is empty.  The second component counts logged diagnostics. -/
def addPluginContexts (plugins : List Plugin)
    (additionalContexts : Option (List SelfDescribingJson)) :
    List SelfDescribingJson × Nat :=
  let folded :=
    plugins.foldl
      (fun acc p => (acc.1 ++ (pluginContribution p).1, acc.2 + (pluginContribution p).2))
      (([] : List SelfDescribingJson), 0)
  (folded.1 ++ additionalContexts.getD [], folded.2)

/-- A payload dictionary value as supplied to `add`: JavaScript `undefined`,
or an actual JSON value (`null` is `val JValue.null`). -/
inductive UValue where
  | undef
  | val (j : JValue)
deriving DecidableEq

/-- An ordered-insertion mapping of payload keys to values. -/
def Payload := List (String × JValue)

/-- Stores a key/value pair, overwriting any prior value for that key while
keeping the key's original insertion position. -/
def payloadInsert (p : Payload) (k : String) (v : JValue) : Payload :=
  match p with
  | [] => [(k, v)]
  | (k', v') :: rest =>
    if k' = k then (k, v) :: rest else (k', v') :: payloadInsert rest k v

/-- A deferred, unprocessed JSON entry awaiting the build-time encoding
decision (`{keyIfEncoded, keyIfNotEncoded, json}`). -/
structure EventJsonWithKeys where
  keyIfEncoded : String
  keyIfNotEncoded : String
  json : JValue
deriving DecidableEq

/-- The JSON processor installed on a builder: given the immediate payload,
the deferred JSON list and the context entities, it produces the final
payload (deciding stringification/encoding itself). -/
def JsonProcessor := Payload → List EventJsonWithKeys → List SelfDescribingJson → Payload

/-- The state of a PayloadBuilder: immediate pairs, deferred JSON entries,
context entities, the optionally installed processor, the payload
materialized by a previous `build()` (if any), and the number of times the
deferred content has been processed. -/
structure PBState where
  payload : Payload
  jsonList : List EventJsonWithKeys
  entities : List SelfDescribingJson
  proc : Option JsonProcessor
  built : Option Payload
  processCount : Nat

/-- A fresh builder as produced by the `payloadBuilder()` factory. -/
def pbNew : PBState :=
  PBState.mk [] [] [] none none 0

/-- Modelled from the spec: `add` (§4.7) — stores a key/value pair,
overwriting any prior value; a no-op if the value is undefined or null. -/
def pbAdd (s : PBState) (k : String) (v : UValue) : PBState :=
  match v with
  | UValue.undef => s
  | UValue.val JValue.null => s
  | UValue.val j =>
    PBState.mk (payloadInsert s.payload k j) s.jsonList s.entities s.proc s.built s.processCount

/-- Modelled from the spec: `addDict` (§4.7) merges another payload's pairs
with the same semantics as `add`. -/
def pbAddDict (s : PBState) (dict : List (String × UValue)) : PBState :=
  dict.foldl (fun st kv => pbAdd st kv.1 kv.2) s

/-- Modelled from the spec: `addJson` (§4.7) appends a deferred entry;
multiple calls accumulate with no dedup. -/
def pbAddJson (s : PBState) (keyIfEncoded keyIfNotEncoded : String) (json : JValue) : PBState :=
  PBState.mk s.payload (s.jsonList ++ [EventJsonWithKeys.mk keyIfEncoded keyIfNotEncoded json])
    s.entities s.proc s.built s.processCount

/-- Modelled from the spec: `addContextEntity` (§4.7) appends to the
context-entity sequence. -/
def pbAddContextEntity (s : PBState) (e : SelfDescribingJson) : PBState :=
  PBState.mk s.payload s.jsonList (s.entities ++ [e]) s.proc s.built s.processCount

/-- Modelled from the spec: `withJsonProcessor` (§4.7) installs the single
build-time processor; the last call wins. -/
def pbWithJsonProcessor (s : PBState) (f : JsonProcessor) : PBState :=
  PBState.mk s.payload s.jsonList s.entities (some f) s.built s.processCount

/-- Modelled from the spec: `build` (§4.7) — on the first call, invoke the
installed JSON processor (if any) with the payload, the full deferred-JSON
list and the full context-entity list, materialize and cache the result;
a second call returns the previously materialized payload without
recomputation. -/
def pbBuild (s : PBState) : Payload × PBState :=
  match s.built with
  | some p => (p, s)
  | none =>
    match s.proc with
    | some f =>
      let p := f s.payload s.jsonList s.entities
      (p, PBState.mk s.payload s.jsonList s.entities s.proc (some p) (s.processCount + 1))
    | none =>
      (s.payload,
        PBState.mk s.payload s.jsonList s.entities s.proc (some s.payload) s.processCount)

/-- The mutating operations available on an open builder. -/
inductive PBOp where
  | add (k : String) (v : UValue)
  | addDict (d : List (String × UValue))
  | addJson (keyIfEncoded keyIfNotEncoded : String) (json : JValue)
  | addContextEntity (e : SelfDescribingJson)
  | withJsonProcessor (f : JsonProcessor)

/-- Applies one builder operation. -/
def pbApply (s : PBState) : PBOp → PBState
  | PBOp.add k v => pbAdd s k v
  | PBOp.addDict d => pbAddDict s d
  | PBOp.addJson ke kne j => pbAddJson s ke kne j
  | PBOp.addContextEntity e => pbAddContextEntity s e
  | PBOp.withJsonProcessor f => pbWithJsonProcessor s f

/-- Runs a sequence of builder operations on a fresh builder. -/
def pbRun (ops : List PBOp) : PBState :=
  ops.foldl pbApply pbNew

/-- Modelled from the spec: `removeEmptyProperties` — returns a copy of a
JSON record with undefined and null properties removed, except that fields
in the exempt set are retained even when empty; retained pairs are
unchanged. -/
def removeEmptyProperties (event : List (String × UValue)) (exemptFields : List String) :
    List (String × UValue) :=
  event.filter fun kv =>
    exemptFields.contains kv.1 || !(kv.2 = UValue.undef || kv.2 = UValue.val JValue.null)

/-- A rule whose `getRuleParts` fails is not a valid rule. -/
lemma isValidRule_eq_false_of_getRuleParts_none {rule : String}
    (h : getRuleParts rule = none) : isValidRule rule = false := by
  unfold isValidRule
  simp [h]

/-- C1: for every RuleSet and schema string, `matchSchemaAgainstRuleSet`
evaluates the fixed-order decision policy: any matching reject rule denies
regardless of the accept rules; otherwise any matching accept rule allows;
otherwise it denies (absence of an explicit accept is a deny). -/
theorem matchSchemaAgainstRuleSet_policy (rs : RuleSet) (schema : String) :
    ((∃ r ∈ normalizeRules rs.reject, matchSchemaAgainstRule r schema = true) →
      matchSchemaAgainstRuleSet rs schema = false)
    ∧ ((∀ r ∈ normalizeRules rs.reject, matchSchemaAgainstRule r schema = false) →
        (∃ r ∈ normalizeRules rs.accept, matchSchemaAgainstRule r schema = true) →
        matchSchemaAgainstRuleSet rs schema = true)
    ∧ ((∀ r ∈ normalizeRules rs.reject, matchSchemaAgainstRule r schema = false) →
        (∀ r ∈ normalizeRules rs.accept, matchSchemaAgainstRule r schema = false) →
        matchSchemaAgainstRuleSet rs schema = false) := by
  have hany : ∀ l : List String,
      (l.any fun r => matchSchemaAgainstRule r schema) = true ↔
        ∃ r ∈ l, matchSchemaAgainstRule r schema = true := by
    intro l
    simp [List.any_eq_true]
  have hall : ∀ l : List String,
      (l.any fun r => matchSchemaAgainstRule r schema) = false ↔
        ∀ r ∈ l, matchSchemaAgainstRule r schema = false := by
    intro l
    simp [List.any_eq_false]
  refine ⟨fun h => ?_, fun h1 h2 => ?_, fun h1 h2 => ?_⟩
  · unfold matchSchemaAgainstRuleSet
    rw [if_pos ((hany _).mpr h)]
  · unfold matchSchemaAgainstRuleSet
    rw [if_neg ?_, if_pos ((hany _).mpr h2)]
    rw [(hall _).mpr h1]
    simp
  · unfold matchSchemaAgainstRuleSet
    rw [if_neg ?_, if_neg ?_]
    · rw [(hall _).mpr h2]
      simp
    · rw [(hall _).mpr h1]
      simp

/-- Witness for C1 at concrete rule sets: a reject match denies even when
an accept rule also matches; an accept-only match allows; no match denies. -/
theorem matchSchemaAgainstRuleSet_policy_witness :
    matchSchemaAgainstRuleSet
        (RuleSet.mk (RuleSetArg.one "com.acme/*/jsonschema/*-*-*")
          (RuleSetArg.one "com.acme/secret/jsonschema/*-*-*"))
        "com.acme/secret/jsonschema/1-0-0" = false
    ∧ matchSchemaAgainstRuleSet
        (RuleSet.mk (RuleSetArg.one "com.acme/*/jsonschema/*-*-*") RuleSetArg.absent)
        "com.acme/event/jsonschema/1-0-0" = true
    ∧ matchSchemaAgainstRuleSet (RuleSet.mk RuleSetArg.absent RuleSetArg.absent)
        "com.acme/event/jsonschema/1-0-0" = false :=
  ⟨(matchSchemaAgainstRuleSet_policy _ _).1 (by decide),
    (matchSchemaAgainstRuleSet_policy _ _).2.1 (by decide) (by decide),
    (matchSchemaAgainstRuleSet_policy _ _).2.2 (by decide) (by decide)⟩

/-- C2: `matchSchemaAgainstRule` fails closed — whenever the rule is not a
valid rule, or the rule or the schema fails to parse into its parts, the
result is `false`.  The function is a total Lean definition, which models
"never throws". -/
theorem matchSchemaAgainstRule_failClosed (rule schema : String)
    (h : isValidRule rule = false ∨ getRuleParts rule = none ∨ getSchemaParts schema = none) :
    matchSchemaAgainstRule rule schema = false := by
  rcases h with h | h | h
  · unfold matchSchemaAgainstRule
    simp [h]
  · unfold matchSchemaAgainstRule
    simp [isValidRule_eq_false_of_getRuleParts_none h]
  · unfold matchSchemaAgainstRule
    cases hv : isValidRule rule
    · simp
    · simp only [Bool.not_true, Bool.false_eq_true, if_false]
      cases hr : getRuleParts rule <;> simp [h]

/-- Witness for C2: an invalid rule (concrete vendor segment after a
wildcard) and a malformed schema string both fail closed. -/
theorem matchSchemaAgainstRule_failClosed_witness :
    matchSchemaAgainstRule "com.*.acme/event_x/jsonschema/1-0-0"
        "com.acme/event_x/jsonschema/1-0-0" = false
    ∧ matchSchemaAgainstRule "com.acme/event_x/jsonschema/1-0-0" "not-a-schema" = false :=
  ⟨matchSchemaAgainstRule_failClosed _ _ (Or.inl (by decide)),
    matchSchemaAgainstRule_failClosed _ _ (Or.inr (Or.inr (by decide)))⟩

/-- A non-vendor part match holds iff the rule part is the wildcard or is
character-equal to the schema part. -/
lemma matchPart_eq_true {a b : String} :
    matchPart a b = true ↔ a = "*" ∨ a = b := by
  simp [matchPart]

/-- C3: for every valid rule and parseable schema, `matchSchemaAgainstRule`
compares part-by-part: the vendor segment lists are matched with a trailing
wildcard segment matching all remaining segments, and every other part
matches iff the rule part is `*` or character-equal to the schema part; the
rule matches iff all parts match.  The rule
`com.acme.*/event_x/jsonschema/1-*-*` matches the schema
`com.acme.sub/event_x/jsonschema/1-0-2` and does not match
`com.other/event_x/jsonschema/1-0-0`. -/
theorem matchSchemaAgainstRule_partByPart :
    (∀ rule schema rp sp, isValidRule rule = true →
      getRuleParts rule = some rp → getSchemaParts schema = some sp →
      (matchSchemaAgainstRule rule schema = true ↔
        matchVendorParts (splitParts '.' rp.vendor) (splitParts '.' sp.vendor) = true
          ∧ (rp.name = "*" ∨ rp.name = sp.name)
          ∧ (rp.format = "*" ∨ rp.format = sp.format)
          ∧ (rp.model = "*" ∨ rp.model = sp.model)
          ∧ (rp.revision = "*" ∨ rp.revision = sp.revision)
          ∧ (rp.addition = "*" ∨ rp.addition = sp.addition)))
    ∧ (∀ remaining, matchVendorParts ["*"] remaining = true)
    ∧ matchSchemaAgainstRule "com.acme.*/event_x/jsonschema/1-*-*"
        "com.acme.sub/event_x/jsonschema/1-0-2" = true
    ∧ matchSchemaAgainstRule "com.acme.*/event_x/jsonschema/1-*-*"
        "com.other/event_x/jsonschema/1-0-0" = false := by
  refine ⟨?_, ?_, by decide, by decide⟩
  · intro rule schema rp sp hv hr hs
    unfold matchSchemaAgainstRule matchVendor
    rw [hv, hr, hs]
    simp [matchPart_eq_true, and_assoc]
  · intro remaining
    unfold matchVendorParts
    simp

/-- Witness for C3: the part-by-part characterization instantiated at a
concrete valid rule and parseable schema. -/
theorem matchSchemaAgainstRule_partByPart_witness :
    matchSchemaAgainstRule "com.acme/*/jsonschema/*-*-*"
        "com.acme/event/jsonschema/1-0-0" = true ↔
      matchVendorParts (splitParts '.' "com.acme") (splitParts '.' "com.acme") = true
        ∧ (("*" : String) = "*" ∨ ("*" : String) = "event")
        ∧ (("jsonschema" : String) = "*" ∨ ("jsonschema" : String) = "jsonschema")
        ∧ (("*" : String) = "*" ∨ ("*" : String) = "1")
        ∧ (("*" : String) = "*" ∨ ("*" : String) = "0")
        ∧ (("*" : String) = "*" ∨ ("*" : String) = "0") :=
  matchSchemaAgainstRule_partByPart.1 "com.acme/*/jsonschema/*-*-*"
    "com.acme/event/jsonschema/1-0-0"
    (SchemaParts.mk "com.acme" "*" "jsonschema" "*" "*" "*")
    (SchemaParts.mk "com.acme" "event" "jsonschema" "1" "0" "0")
    (by decide) (by decide) (by decide)

/-- All-wildcard check characterized by list membership. -/
lemma allWildcards_iff (l : List String) :
    allWildcards l = true ↔ ∀ s ∈ l, s = "*" := by
  simp [allWildcards]

/-- The vendor-segment grammar check holds iff the segment list splits into
concrete (non-wildcard) leading segments followed by only wildcards. -/
lemma validateVendorParts_iff (l : List String) :
    validateVendorParts l = true ↔
      ∃ c w, l = c ++ w ∧ (∀ s ∈ c, s ≠ "*") ∧ (∀ s ∈ w, s = "*") := by
  induction l with
  | nil =>
    constructor
    · intro _
      exact ⟨[], [], rfl, by simp, by simp⟩
    · intro _
      rfl
  | cons p ps ih =>
    rw [show validateVendorParts (p :: ps)
        = if p = "*" then allWildcards ps else validateVendorParts ps from rfl]
    by_cases hp : p = "*"
    · subst hp
      rw [if_pos rfl, allWildcards_iff]
      constructor
      · intro h
        refine ⟨[], "*" :: ps, rfl, by simp, ?_⟩
        intro s hs
        rcases List.mem_cons.mp hs with h1 | h1
        · exact h1
        · exact h s h1
      · rintro ⟨c, w, heq, hc, hw⟩ s hs
        cases c with
        | nil =>
          simp only [List.nil_append] at heq
          exact hw s (heq ▸ List.mem_cons_of_mem _ hs)
        | cons c0 cs =>
          rw [List.cons_append, List.cons.injEq] at heq
          exact absurd heq.1.symm (hc c0 (by simp))
    · rw [if_neg hp, ih]
      constructor
      · rintro ⟨c, w, heq, hc, hw⟩
        refine ⟨p :: c, w, by rw [heq, List.cons_append], ?_, hw⟩
        intro s hs
        rcases List.mem_cons.mp hs with h1 | h1
        · exact h1 ▸ hp
        · exact hc s h1
      · rintro ⟨c, w, heq, hc, hw⟩
        cases c with
        | nil =>
          simp only [List.nil_append] at heq
          cases w with
          | nil => simp at heq
          | cons w0 ws =>
            have hw0 : w0 = "*" := hw w0 (by simp)
            rw [List.cons.injEq] at heq
            exact absurd (heq.1.trans hw0) hp
        | cons c0 cs =>
          rw [List.cons_append, List.cons.injEq] at heq
          refine ⟨cs, w, heq.2, ?_, hw⟩
          intro s hs
          exact hc s (List.mem_cons_of_mem _ hs)

/-- C4: `validateVendor` accepts exactly the vendor strings whose
dot-separated segments are zero or more concrete segments followed by zero
or more `*` segments (no concrete segment after a wildcard); a lone `*` is
valid, the empty vendor is invalid, and the vendor `com.*.acme` is rejected
so a rule carrying it never matches any schema. -/
theorem validateVendor_spec :
    (∀ v : String, validateVendor v = true ↔
      (v ≠ "" ∧ ∃ c w, splitParts '.' v = c ++ w
        ∧ (∀ s ∈ c, s ≠ "*") ∧ (∀ s ∈ w, s = "*")))
    ∧ validateVendor "*" = true
    ∧ validateVendor "" = false
    ∧ validateVendor "com.*.acme" = false
    ∧ (∀ schema, matchSchemaAgainstRule "com.*.acme/event_x/jsonschema/1-0-0" schema = false) := by
  refine ⟨?_, by decide, by decide, by decide, ?_⟩
  · intro v
    unfold validateVendor
    by_cases hv : v = ""
    · simp [hv]
    · rw [if_neg hv, validateVendorParts_iff]
      simp [hv]
  · intro schema
    unfold matchSchemaAgainstRule
    simp [show isValidRule "com.*.acme/event_x/jsonschema/1-0-0" = false from by decide]

/-- Witness for C4: the wildcard-grammar-violating rule matches no schema,
instantiated at a concrete schema that the same rule without the bad vendor
would match. -/
theorem validateVendor_spec_witness :
    matchSchemaAgainstRule "com.*.acme/event_x/jsonschema/1-0-0"
      "com.other.acme/event_x/jsonschema/1-0-0" = false :=
  validateVendor_spec.2.2.2.2 "com.other.acme/event_x/jsonschema/1-0-0"

/-- The primitives among a list of registry inputs, in input order. -/
def primsOf (inputs : List GlobalContextInput) : List ContextPrimitive :=
  inputs.filterMap fun i =>
    match i with
    | GlobalContextInput.primitive p => some p
    | _ => none

/-- The conditional providers among a list of registry inputs, in input
order. -/
def condsOf (inputs : List GlobalContextInput) : List ConditionalProvider :=
  inputs.filterMap fun i =>
    match i with
    | GlobalContextInput.conditional c => some c
    | _ => none

/-- A sequence of `addGlobalContexts` calls, applied to a fresh registry. -/
def addCalls (calls : List (List GlobalContextInput)) : GlobalContextsState :=
  calls.foldl addGlobalContexts emptyGlobalContexts

/-- Adding inputs appends their primitives and conditional providers to
the respective collections, preserving input order. -/
lemma addGlobalContexts_eq (s : GlobalContextsState) (inputs : List GlobalContextInput) :
    addGlobalContexts s inputs
      = GlobalContextsState.mk (s.primitives ++ primsOf inputs)
          (s.conditionals ++ condsOf inputs) := by
  induction inputs generalizing s with
  | nil => simp [addGlobalContexts, primsOf, condsOf]
  | cons i rest ih =>
    cases i with
    | primitive p =>
      have hstep : addGlobalContexts s (GlobalContextInput.primitive p :: rest)
          = addGlobalContexts
              (GlobalContextsState.mk (s.primitives ++ [p]) s.conditionals) rest := rfl
      rw [hstep, ih]
      simp [primsOf, condsOf]
    | conditional c =>
      have hstep : addGlobalContexts s (GlobalContextInput.conditional c :: rest)
          = addGlobalContexts
              (GlobalContextsState.mk s.primitives (s.conditionals ++ [c])) rest := rfl
      rw [hstep, ih]
      simp [primsOf, condsOf]
    | malformed =>
      have hstep : addGlobalContexts s (GlobalContextInput.malformed :: rest)
          = addGlobalContexts s rest := rfl
      rw [hstep, ih]
      simp [primsOf, condsOf]

/-- A sequence of add calls produces exactly the primitives and the
conditional providers of the concatenated inputs, in call order. -/
lemma addCalls_eq (calls : List (List GlobalContextInput)) :
    addCalls calls
      = GlobalContextsState.mk (primsOf calls.flatten) (condsOf calls.flatten) := by
  have main : ∀ (cs : List (List GlobalContextInput)) (s : GlobalContextsState),
      cs.foldl addGlobalContexts s
        = GlobalContextsState.mk (s.primitives ++ primsOf cs.flatten)
            (s.conditionals ++ condsOf cs.flatten) := by
    intro cs
    induction cs with
    | nil => intro s; simp [primsOf, condsOf]
    | cons c rest ih =>
      intro s
      rw [List.foldl_cons, ih, addGlobalContexts_eq]
      simp [primsOf, condsOf, List.filterMap_append]
  rw [addCalls, main]
  simp [emptyGlobalContexts]

/-- C5: for every sequence of `addGlobalContexts` calls and every event,
`getApplicableContexts` lists all resolved unconditional primitives first,
in registration order, followed by the contributions of the conditional
providers in registration order; structurally identical entities occurring
twice are both kept (no deduplication). -/
theorem getApplicableContexts_order (genv : Nat → ContextEvent → GenResult)
    (fenv : Nat → ContextEvent → Bool) (calls : List (List GlobalContextInput))
    (ev : ContextEvent) :
    getApplicableContexts genv fenv (addCalls calls) ev
      = resolveDynamicContext genv ev (primsOf calls.flatten)
        ++ (condsOf calls.flatten).flatMap (conditionalContribution genv fenv ev)
    ∧ (∀ e : SelfDescribingJson, isSelfDescribingJson e = true →
        getApplicableContexts genv fenv
          (addCalls [[GlobalContextInput.primitive (ContextPrimitive.static e)],
            [GlobalContextInput.primitive (ContextPrimitive.static e)]]) ev = [e, e]) := by
  constructor
  · rw [addCalls_eq]
    rfl
  · intro e he
    simp [getApplicableContexts, addCalls, addGlobalContexts, emptyGlobalContexts,
      resolveDynamicContext, he]

/-- Witness for C5: a duplicated concrete static entity is emitted twice,
unconditional before conditional at a concrete registry. -/
theorem getApplicableContexts_order_witness :
    getApplicableContexts (fun _ _ => GenResult.nothing) (fun _ _ => true)
        (addCalls [[GlobalContextInput.primitive (ContextPrimitive.static
          (SelfDescribingJson.mk "iglu:com.acme/a/jsonschema/1-0-0"
            (JValue.obj (JFields.cons "k" (JValue.str "v") JFields.nil))))],
          [GlobalContextInput.primitive (ContextPrimitive.static
            (SelfDescribingJson.mk "iglu:com.acme/a/jsonschema/1-0-0"
              (JValue.obj (JFields.cons "k" (JValue.str "v") JFields.nil))))]])
        (ContextEvent.mk [] "pv" "")
      = [SelfDescribingJson.mk "iglu:com.acme/a/jsonschema/1-0-0"
          (JValue.obj (JFields.cons "k" (JValue.str "v") JFields.nil)),
        SelfDescribingJson.mk "iglu:com.acme/a/jsonschema/1-0-0"
          (JValue.obj (JFields.cons "k" (JValue.str "v") JFields.nil))] :=
  (getApplicableContexts_order (fun _ _ => GenResult.nothing) (fun _ _ => true)
      [[GlobalContextInput.primitive (ContextPrimitive.static
        (SelfDescribingJson.mk "iglu:com.acme/a/jsonschema/1-0-0"
          (JValue.obj (JFields.cons "k" (JValue.str "v") JFields.nil))))],
        [GlobalContextInput.primitive (ContextPrimitive.static
          (SelfDescribingJson.mk "iglu:com.acme/a/jsonschema/1-0-0"
            (JValue.obj (JFields.cons "k" (JValue.str "v") JFields.nil))))]]
      (ContextEvent.mk [] "pv" "")).2 _ (by decide)

/-- Removing an element deletes exactly the first structurally-equal
entry. -/
lemma removeFirst_append_cons {α : Type} [DecidableEq α] (l1 l2 : List α) (a : α)
    (h : a ∉ l1) : removeFirst (l1 ++ a :: l2) a = l1 ++ l2 := by
  induction l1 with
  | nil => simp [removeFirst]
  | cons x xs ih =>
    have hx : ¬x = a := fun hxa => h (hxa ▸ List.mem_cons_self x xs)
    rw [List.cons_append, List.cons_append]
    rw [show removeFirst (x :: (xs ++ a :: l2)) a
        = if x = a then xs ++ a :: l2 else x :: removeFirst (xs ++ a :: l2) a from rfl]
    rw [if_neg hx, ih (fun hmem => h (List.mem_cons_of_mem x hmem))]

/-- C6: `removeGlobalContexts` removes only the first structurally-equal
entry from the matching collection (primitives or conditional providers):
adding the same static primitive via two calls and removing it once leaves
exactly one copy, and adding once then removing once empties the registry.
Structural (deep) equality is the identity of the modelled values, so a
structurally identical but distinct instance is the same entry. -/
theorem removeGlobalContexts_firstMatch :
    (∀ (l1 l2 : List ContextPrimitive) (cs : List ConditionalProvider) (p : ContextPrimitive),
      p ∉ l1 →
      removeGlobalContexts (GlobalContextsState.mk (l1 ++ p :: l2) cs)
          [GlobalContextInput.primitive p]
        = GlobalContextsState.mk (l1 ++ l2) cs)
    ∧ (∀ (ps : List ContextPrimitive) (d1 d2 : List ConditionalProvider)
        (c : ConditionalProvider),
      c ∉ d1 →
      removeGlobalContexts (GlobalContextsState.mk ps (d1 ++ c :: d2))
          [GlobalContextInput.conditional c]
        = GlobalContextsState.mk ps (d1 ++ d2))
    ∧ (∀ p : ContextPrimitive,
      removeGlobalContexts
          (addCalls [[GlobalContextInput.primitive p], [GlobalContextInput.primitive p]])
          [GlobalContextInput.primitive p]
        = GlobalContextsState.mk [p] []
      ∧ removeGlobalContexts (addCalls [[GlobalContextInput.primitive p]])
          [GlobalContextInput.primitive p]
        = emptyGlobalContexts) := by
  refine ⟨fun l1 l2 cs p h => ?_, fun ps d1 d2 c h => ?_, fun p => ⟨?_, ?_⟩⟩
  · show GlobalContextsState.mk (removeFirst (l1 ++ p :: l2) p) cs
      = GlobalContextsState.mk (l1 ++ l2) cs
    rw [removeFirst_append_cons l1 l2 p h]
  · show GlobalContextsState.mk ps (removeFirst (d1 ++ c :: d2) c)
      = GlobalContextsState.mk ps (d1 ++ d2)
    rw [removeFirst_append_cons d1 d2 c h]
  · simp [addCalls, addGlobalContexts, emptyGlobalContexts, removeGlobalContexts, removeFirst]
  · simp [addCalls, addGlobalContexts, emptyGlobalContexts, removeGlobalContexts, removeFirst]

/-- Witness for C6: with a concrete registry holding two distinct static
entities, removing the second leaves the first untouched, and the doubled
add/remove scenarios at a concrete entity. -/
theorem removeGlobalContexts_firstMatch_witness :
    removeGlobalContexts
        (GlobalContextsState.mk
          [ContextPrimitive.static (SelfDescribingJson.mk "iglu:com.acme/a/jsonschema/1-0-0"
              (JValue.obj (JFields.cons "k" (JValue.str "v") JFields.nil))),
            ContextPrimitive.static (SelfDescribingJson.mk "iglu:com.acme/b/jsonschema/1-0-0"
              (JValue.obj (JFields.cons "k" (JValue.str "v") JFields.nil)))] [])
        [GlobalContextInput.primitive (ContextPrimitive.static
          (SelfDescribingJson.mk "iglu:com.acme/b/jsonschema/1-0-0"
            (JValue.obj (JFields.cons "k" (JValue.str "v") JFields.nil))))]
      = GlobalContextsState.mk
          [ContextPrimitive.static (SelfDescribingJson.mk "iglu:com.acme/a/jsonschema/1-0-0"
            (JValue.obj (JFields.cons "k" (JValue.str "v") JFields.nil)))] [] :=
  removeGlobalContexts_firstMatch.1
    [ContextPrimitive.static (SelfDescribingJson.mk "iglu:com.acme/a/jsonschema/1-0-0"
      (JValue.obj (JFields.cons "k" (JValue.str "v") JFields.nil)))] []
    []
    (ContextPrimitive.static (SelfDescribingJson.mk "iglu:com.acme/b/jsonschema/1-0-0"
      (JValue.obj (JFields.cons "k" (JValue.str "v") JFields.nil))))
    (by decide)

/-- `add` never touches the materialized payload or the process count. -/
lemma pbAdd_meta (s : PBState) (k : String) (v : UValue) :
    (pbAdd s k v).built = s.built ∧ (pbAdd s k v).processCount = s.processCount := by
  cases v with
  | undef => exact ⟨rfl, rfl⟩
  | val j => cases j <;> exact ⟨rfl, rfl⟩

/-- `addDict` never touches the materialized payload or the process
count. -/
lemma pbAddDict_meta (s : PBState) (dict : List (String × UValue)) :
    (pbAddDict s dict).built = s.built ∧ (pbAddDict s dict).processCount = s.processCount := by
  induction dict generalizing s with
  | nil => exact ⟨rfl, rfl⟩
  | cons kv rest ih =>
    have hstep : pbAddDict s (kv :: rest) = pbAddDict (pbAdd s kv.1 kv.2) rest := rfl
    rw [hstep]
    obtain ⟨h1, h2⟩ := ih (pbAdd s kv.1 kv.2)
    obtain ⟨h3, h4⟩ := pbAdd_meta s kv.1 kv.2
    exact ⟨h1.trans h3, h2.trans h4⟩

/-- No open-builder operation materializes the payload or processes the
deferred content. -/
lemma pbApply_meta (s : PBState) (op : PBOp) :
    (pbApply s op).built = s.built ∧ (pbApply s op).processCount = s.processCount := by
  cases op with
  | add k v => exact pbAdd_meta s k v
  | addDict d => exact pbAddDict_meta s d
  | addJson ke kne j => exact ⟨rfl, rfl⟩
  | addContextEntity e => exact ⟨rfl, rfl⟩
  | withJsonProcessor f => exact ⟨rfl, rfl⟩

/-- A builder produced by any sequence of open-builder operations has not
yet materialized a payload nor processed deferred content. -/
lemma pbRun_open (ops : List PBOp) :
    (pbRun ops).built = none ∧ (pbRun ops).processCount = 0 := by
  have main : ∀ (l : List PBOp) (s : PBState),
      (l.foldl pbApply s).built = s.built
        ∧ (l.foldl pbApply s).processCount = s.processCount := by
    intro l
    induction l with
    | nil => intro s; exact ⟨rfl, rfl⟩
    | cons op rest ih =>
      intro s
      rw [List.foldl_cons]
      obtain ⟨h1, h2⟩ := ih (pbApply s op)
      obtain ⟨h3, h4⟩ := pbApply_meta s op
      exact ⟨h1.trans h3, h2.trans h4⟩
  exact main ops pbNew

/-- C7: calling `build()` a second time returns the previously materialized
payload without recomputation — the payload contents agree, the builder
state is unchanged by the second call, and when a JSON processor is
installed the deferred content is processed exactly once across both
calls. -/
theorem pbBuild_idempotent (ops : List PBOp) :
    (pbBuild (pbBuild (pbRun ops)).2).1 = (pbBuild (pbRun ops)).1
    ∧ (pbBuild (pbBuild (pbRun ops)).2).2 = (pbBuild (pbRun ops)).2
    ∧ (∀ f, (pbRun ops).proc = some f →
        (pbBuild (pbBuild (pbRun ops)).2).2.processCount = 1
          ∧ (pbBuild (pbRun ops)).1
              = f (pbRun ops).payload (pbRun ops).jsonList (pbRun ops).entities) := by
  obtain ⟨hb, hc⟩ := pbRun_open ops
  cases hp : (pbRun ops).proc with
  | some f =>
    have h1 : pbBuild (pbRun ops)
        = (f (pbRun ops).payload (pbRun ops).jsonList (pbRun ops).entities,
            PBState.mk (pbRun ops).payload (pbRun ops).jsonList (pbRun ops).entities
              (pbRun ops).proc
              (some (f (pbRun ops).payload (pbRun ops).jsonList (pbRun ops).entities))
              ((pbRun ops).processCount + 1)) := by
      unfold pbBuild
      rw [hb, hp]
    rw [h1]
    refine ⟨rfl, rfl, fun g hg => ⟨?_, ?_⟩⟩
    · show (pbRun ops).processCount + 1 = 1
      rw [hc]
    · obtain rfl := Option.some.inj hg
      rfl
  | none =>
    have h1 : pbBuild (pbRun ops)
        = ((pbRun ops).payload,
            PBState.mk (pbRun ops).payload (pbRun ops).jsonList (pbRun ops).entities
              (pbRun ops).proc (some (pbRun ops).payload) (pbRun ops).processCount) := by
      unfold pbBuild
      rw [hb, hp]
    rw [h1]
    refine ⟨rfl, rfl, fun g hg => ?_⟩
    simp at hg

/-- Witness for C7: a concrete builder with an installed processor
processes its deferred content exactly once over two builds. -/
theorem pbBuild_idempotent_witness :
    (pbBuild (pbBuild (pbRun [PBOp.addJson "cx" "co"
        (JValue.obj (JFields.cons "k" (JValue.str "v") JFields.nil)),
      PBOp.withJsonProcessor (fun p _ _ => p)])).2).2.processCount = 1
    ∧ (pbBuild (pbRun [PBOp.addJson "cx" "co"
        (JValue.obj (JFields.cons "k" (JValue.str "v") JFields.nil)),
      PBOp.withJsonProcessor (fun p _ _ => p)])).1
      = (fun (p : Payload) (_ : List EventJsonWithKeys) (_ : List SelfDescribingJson) => p)
          (pbRun [PBOp.addJson "cx" "co"
            (JValue.obj (JFields.cons "k" (JValue.str "v") JFields.nil)),
          PBOp.withJsonProcessor (fun p _ _ => p)]).payload
          (pbRun [PBOp.addJson "cx" "co"
            (JValue.obj (JFields.cons "k" (JValue.str "v") JFields.nil)),
          PBOp.withJsonProcessor (fun p _ _ => p)]).jsonList
          (pbRun [PBOp.addJson "cx" "co"
            (JValue.obj (JFields.cons "k" (JValue.str "v") JFields.nil)),
          PBOp.withJsonProcessor (fun p _ _ => p)]).entities :=
  (pbBuild_idempotent [PBOp.addJson "cx" "co"
      (JValue.obj (JFields.cons "k" (JValue.str "v") JFields.nil)),
    PBOp.withJsonProcessor (fun p _ _ => p)]).2.2
    (fun p _ _ => p) rfl

/-- C8: `resolveDynamicContext` preserves input order with generator
outputs expanded in place — it distributes over append, a static element
passes through exactly when it is a well-formed non-empty self-describing
JSON, a generator element contributes its flattened invocation result, and
`[entityA, () => entityB, () => undefined]` resolves to
`[entityA, entityB]`. -/
theorem resolveDynamicContext_spec (A : Type) (env : Nat → A → GenResult) (args : A) :
    (∀ xs ys : List ContextPrimitive,
      resolveDynamicContext env args (xs ++ ys)
        = resolveDynamicContext env args xs ++ resolveDynamicContext env args ys)
    ∧ (∀ e : SelfDescribingJson,
        resolveDynamicContext env args [ContextPrimitive.static e]
          = if isSelfDescribingJson e then [e] else [])
    ∧ (∀ i : Nat,
        resolveDynamicContext env args [ContextPrimitive.gen i]
          = flattenGenResult (env i args))
    ∧ (∀ entityA entityB : SelfDescribingJson, isSelfDescribingJson entityA = true →
        resolveDynamicContext
            (fun i (_ : Unit) =>
              if i = 0 then GenResult.one entityB else GenResult.nothing) ()
            [ContextPrimitive.static entityA, ContextPrimitive.gen 0, ContextPrimitive.gen 1]
          = [entityA, entityB]) := by
  refine ⟨fun xs ys => ?_, fun e => ?_, fun i => ?_, fun entityA entityB h => ?_⟩
  · unfold resolveDynamicContext
    exact List.flatMap_append _ _ _
  · simp [resolveDynamicContext]
  · simp [resolveDynamicContext]
  · simp [resolveDynamicContext, flattenGenResult, h]

/-- Witness for C8: the drop-undefined example at concrete entities. -/
theorem resolveDynamicContext_spec_witness :
    resolveDynamicContext
        (fun i (_ : Unit) =>
          if i = 0 then
            GenResult.one (SelfDescribingJson.mk "iglu:com.acme/b/jsonschema/1-0-0"
              (JValue.obj (JFields.cons "k" (JValue.num 2) JFields.nil)))
          else GenResult.nothing) ()
        [ContextPrimitive.static (SelfDescribingJson.mk "iglu:com.acme/a/jsonschema/1-0-0"
            (JValue.obj (JFields.cons "k" (JValue.num 1) JFields.nil))),
          ContextPrimitive.gen 0, ContextPrimitive.gen 1]
      = [SelfDescribingJson.mk "iglu:com.acme/a/jsonschema/1-0-0"
          (JValue.obj (JFields.cons "k" (JValue.num 1) JFields.nil)),
        SelfDescribingJson.mk "iglu:com.acme/b/jsonschema/1-0-0"
          (JValue.obj (JFields.cons "k" (JValue.num 2) JFields.nil))] :=
  (resolveDynamicContext_spec Unit (fun _ _ => GenResult.nothing) ()).2.2.2
    (SelfDescribingJson.mk "iglu:com.acme/a/jsonschema/1-0-0"
      (JValue.obj (JFields.cons "k" (JValue.num 1) JFields.nil)))
    (SelfDescribingJson.mk "iglu:com.acme/b/jsonschema/1-0-0"
      (JValue.obj (JFields.cons "k" (JValue.num 2) JFields.nil)))
    (by decide)

/-- Closed form of the plugin aggregation fold. -/
lemma addPluginContexts_eq (plugins : List Plugin)
    (additionalContexts : Option (List SelfDescribingJson)) :
    addPluginContexts plugins additionalContexts
      = (plugins.flatMap (fun p => (pluginContribution p).1) ++ additionalContexts.getD [],
          (plugins.map (fun p => (pluginContribution p).2)).sum) := by
  have main : ∀ (ps : List Plugin) (acc : List SelfDescribingJson × Nat),
      ps.foldl (fun acc p =>
          (acc.1 ++ (pluginContribution p).1, acc.2 + (pluginContribution p).2)) acc
        = (acc.1 ++ ps.flatMap (fun p => (pluginContribution p).1),
            acc.2 + (ps.map (fun p => (pluginContribution p).2)).sum) := by
    intro ps
    induction ps with
    | nil => intro acc; simp
    | cons p rest ih =>
      intro acc
      rw [List.foldl_cons, ih]
      simp [List.flatMap_cons, Nat.add_assoc]
  unfold addPluginContexts
  rw [main]
  simp

/-- C9: a plugin whose `contexts()` hook throws does not abort aggregation:
its contribution is treated as empty, one diagnostic is logged, and the
other plugins' contributions plus the supplied additional contexts are
returned unchanged, in plugin-registration order. -/
theorem addPluginContexts_throwIsolated :
    (∀ (ps1 ps2 : List Plugin) (additionalContexts : Option (List SelfDescribingJson)),
      (addPluginContexts (ps1 ++ Plugin.withHook HookOutcome.throws :: ps2)
          additionalContexts).1
        = (addPluginContexts (ps1 ++ ps2) additionalContexts).1
      ∧ (addPluginContexts (ps1 ++ Plugin.withHook HookOutcome.throws :: ps2)
          additionalContexts).2
        = (addPluginContexts (ps1 ++ ps2) additionalContexts).2 + 1)
    ∧ (∀ (plugins : List Plugin) (additionalContexts : Option (List SelfDescribingJson)),
      (addPluginContexts plugins additionalContexts).1
        = plugins.flatMap (fun p => (pluginContribution p).1)
            ++ additionalContexts.getD []) := by
  constructor
  · intro ps1 ps2 additionalContexts
    rw [addPluginContexts_eq, addPluginContexts_eq]
    constructor
    · simp [pluginContribution]
    · simp [pluginContribution]
      omega
  · intro plugins additionalContexts
    rw [addPluginContexts_eq]

/-- Witness for C9: a throwing plugin in front of a returning plugin at a
concrete entity list — same entities, one extra diagnostic. -/
theorem addPluginContexts_throwIsolated_witness :
    (addPluginContexts [Plugin.withHook HookOutcome.throws,
        Plugin.withHook (HookOutcome.returns [SelfDescribingJson.mk
          "iglu:com.acme/p/jsonschema/1-0-0"
          (JValue.obj (JFields.cons "k" (JValue.num 9) JFields.nil))])] none).1
      = (addPluginContexts [Plugin.withHook (HookOutcome.returns [SelfDescribingJson.mk
          "iglu:com.acme/p/jsonschema/1-0-0"
          (JValue.obj (JFields.cons "k" (JValue.num 9) JFields.nil))])] none).1
    ∧ (addPluginContexts [Plugin.withHook HookOutcome.throws,
        Plugin.withHook (HookOutcome.returns [SelfDescribingJson.mk
          "iglu:com.acme/p/jsonschema/1-0-0"
          (JValue.obj (JFields.cons "k" (JValue.num 9) JFields.nil))])] none).2
      = (addPluginContexts [Plugin.withHook (HookOutcome.returns [SelfDescribingJson.mk
          "iglu:com.acme/p/jsonschema/1-0-0"
          (JValue.obj (JFields.cons "k" (JValue.num 9) JFields.nil))])] none).2 + 1 :=
  addPluginContexts_throwIsolated.1 []
    [Plugin.withHook (HookOutcome.returns [SelfDescribingJson.mk
      "iglu:com.acme/p/jsonschema/1-0-0"
      (JValue.obj (JFields.cons "k" (JValue.num 9) JFields.nil))])] none

/-- C10: `removeEmptyProperties` keeps exactly the pairs whose value is
neither undefined nor null, plus the exempt fields regardless of value;
retained pairs are unchanged and keep their order (the output is a sublist
of the input, which is itself untouched — the model is pure). -/
theorem removeEmptyProperties_spec :
    (∀ (event : List (String × UValue)) (exemptFields : List String) (k : String) (v : UValue),
      ((k, v) ∈ removeEmptyProperties event exemptFields ↔
        (k, v) ∈ event
          ∧ (k ∈ exemptFields ∨ (v ≠ UValue.undef ∧ v ≠ UValue.val JValue.null))))
    ∧ (∀ (event : List (String × UValue)) (exemptFields : List String),
        (removeEmptyProperties event exemptFields).Sublist event) := by
  constructor
  · intro event exemptFields k v
    unfold removeEmptyProperties
    rw [List.mem_filter]
    simp [List.elem_iff, not_or]
  · intro event exemptFields
    exact List.filter_sublist event

/-- Witness for C10: membership characterization at a concrete record with
an undefined, a null, an exempt-null and a concrete property. -/
theorem removeEmptyProperties_spec_witness :
    ("a", UValue.val (JValue.num 1)) ∈ removeEmptyProperties
        [("a", UValue.val (JValue.num 1)), ("b", UValue.undef),
          ("c", UValue.val JValue.null), ("d", UValue.val JValue.null)] ["d"] ↔
      ("a", UValue.val (JValue.num 1)) ∈
          [("a", UValue.val (JValue.num 1)), ("b", UValue.undef),
            ("c", UValue.val JValue.null), ("d", UValue.val JValue.null)]
        ∧ (("a" : String) ∈ ["d"]
            ∨ (UValue.val (JValue.num 1) ≠ UValue.undef
                ∧ UValue.val (JValue.num 1) ≠ UValue.val JValue.null)) :=
  removeEmptyProperties_spec.1
    [("a", UValue.val (JValue.num 1)), ("b", UValue.undef),
      ("c", UValue.val JValue.null), ("d", UValue.val JValue.null)] ["d"]
    "a" (UValue.val (JValue.num 1))

end ConvivaCore
